import Mathlib

/-!
Verification of the watch-time accounting and threshold-alert engine of the
samsung-tv-youtube-monitor repository.

The repository contains two parallel implementations of the engine:

* `src/core/theme_analyzer.py` together with `src/core/youtube_handler.py`
  maintain a JSON document (`watch_time.json`) with an all-time grand total,
  per-video and per-category entries, and per-period reset baselines
  (`reset_points`).  `youtube_handler._update_watch_time` adds a finished
  session; `theme_analyzer.check_time_limits` detects limit crossings;
  `theme_analyzer._check_reset_needed` / `_reset_watch_time` implement the
  daily/weekly reset bookkeeping; `theme_analyzer.get_stats_report` builds a
  read-only statistics snapshot; both `monitor.py` and `theme_analyzer.py`
  carry a `_format_time` helper.

* `src/watch_time_tracker.py` keeps a flat theme -> seconds dictionary with
  the same edge-triggered crossing test and the same daily/weekly reset
  conditions.

Durations and limits are Python floats used only with `+`, `-` and order
comparisons on second-scale magnitudes; they are embedded as exact rationals
(`ℚ`).  Python `dict`s are embedded as association lists with
position-preserving update (`dictSet`), matching insertion-order semantics.
`datetime` values are embedded as a calendar-date ordinal paired with an
absolute epoch-second count, which is exactly the structure the reset code
observes (`.date()` comparison and subtraction by `timedelta`).
Presentation-only fields of the Python alert dictionaries (the human-readable
`message` built by `_format_time` and the display `category_name` looked up in
`categories.json`) are not modelled; the structured fields (alert type,
category id, limit, current value) are.
-/

namespace WatchTimeEngine

/-! ### Association lists with Python dict semantics -/

/-- Lookup in an association list: the value bound to the first occurrence of
key `k`, as Python `d.get(k)`. -/
def alookup {β : Type} : List (String × β) → String → Option β
  | [], _ => none
  | (k, v) :: t, k0 => if k = k0 then some v else alookup t k0

/-- Python `d[k] = v`: replace the binding in place if the key is present
(keeping its position, as Python dicts do), otherwise append it at the end. -/
def dictSet {β : Type} : List (String × β) → String → β → List (String × β)
  | [], k0, v0 => [(k0, v0)]
  | (k, v) :: t, k0, v0 => if k = k0 then (k0, v0) :: t else (k, v) :: dictSet t k0 v0

theorem alookup_dictSet_self {β : Type} (l : List (String × β)) (k : String) (v : β) :
    alookup (dictSet l k v) k = some v := by
  induction l with
  | nil => simp [dictSet, alookup]
  | cons h t ih =>
    obtain ⟨k1, v1⟩ := h
    by_cases hk : k1 = k
    · simp [dictSet, hk, alookup]
    · simp [dictSet, hk, alookup, ih]

theorem alookup_dictSet_ne {β : Type} (l : List (String × β)) (k k0 : String) (v : β)
    (h : k ≠ k0) : alookup (dictSet l k v) k0 = alookup l k0 := by
  induction l with
  | nil => simp [dictSet, alookup, h]
  | cons hd t ih =>
    obtain ⟨k1, v1⟩ := hd
    by_cases hk : k1 = k
    · subst hk
      simp [dictSet, alookup, h]
    · simp [dictSet, hk, alookup, ih]

/-! ### Threshold Evaluator

`theme_analyzer.check_time_limits` tests, per limit,
`current > limit and (current - duration_seconds) <= limit`, and
`watch_time_tracker.update_watch_time` tests
`self.watch_time[theme] > limit and self.watch_time[theme] - duration_seconds <= limit`;
both are the same predicate on the post-update value `current`, the applied
`duration` and the `limit`. -/

/-- The crossing test shared by both implementations: `current` is the
post-update current-period value and `duration` the just-applied delta. -/
def crossedLimit (current duration limit : ℚ) : Prop :=
  limit < current ∧ current - duration ≤ limit

instance (current duration limit : ℚ) : Decidable (crossedLimit current duration limit) := by
  unfold crossedLimit
  infer_instance

/-- C1: threshold crossing is edge-triggered with a strict upper comparison.
With `before = after - duration`, the code's test
`after > limit and after - duration <= limit` holds iff
`before <= limit < after`; consequently equality `after = limit` never
reports a crossing and a zero-duration update (`before = after`) never
reports a crossing. -/
theorem crossing_iff_edge_triggered (before_value after_value limit : ℚ) :
    (crossedLimit after_value (after_value - before_value) limit ↔
      before_value ≤ limit ∧ limit < after_value)
    ∧ ¬ crossedLimit limit (limit - before_value) limit
    ∧ ¬ crossedLimit after_value 0 limit := by
  refine ⟨?_, ?_, ?_⟩
  · simp only [crossedLimit, sub_sub_cancel]
    exact ⟨fun h => ⟨h.2, h.1⟩, fun h => ⟨h.2, h.1⟩⟩
  · rintro ⟨h, _⟩
    exact lt_irrefl limit h
  · rintro ⟨h1, h2⟩
    rw [sub_zero] at h2
    exact absurd h1 (not_lt.mpr h2)

/-! ### Reset Scheduler

`theme_analyzer._check_reset_needed` (and identically
`watch_time_tracker.check_reset_needed`) compares `datetime` values: the
daily reset fires on `now.date() > daily_reset.date()` and the weekly reset
on `now - weekly_reset >= timedelta(days=7)`; on firing, the stored timestamp
for that period is overwritten with `now`. -/

/-- A Python `datetime` as far as the reset code observes it: its calendar
date (as a day ordinal, so `<` is "strictly earlier date") and its absolute
position in time in seconds (so subtraction of two datetimes in seconds is
subtraction of the `epochSec` fields). -/
structure PyDateTime where
  date : ℤ
  epochSec : ℚ
deriving DecidableEq

/-- The two accounting periods. -/
inductive Period where
  | daily
  | weekly
deriving DecidableEq

/-- Seconds in seven days, the value of `timedelta(days=7)`. -/
def sevenDaysSec : ℚ := 7 * 86400

/-- The scheduler entry `maybe_reset`: decides whether the reset for period `p` fires at instant
`now` given the stored last-reset instant, and returns the stored instant
after the call (overwritten with `now` exactly when it fires). -/
def maybeReset (now : PyDateTime) (p : Period) (lastReset : PyDateTime) :
    Bool × PyDateTime :=
  match p with
  | .daily =>
      if lastReset.date < now.date then (true, now) else (false, lastReset)
  | .weekly =>
      if sevenDaysSec ≤ now.epochSec - lastReset.epochSec then (true, now)
      else (false, lastReset)

/-- C2: the daily reset triggers exactly when `now`'s calendar date is
strictly later than the stored instant's date (so a later time on the same
date never triggers), the weekly reset triggers exactly when at least seven
days' worth of seconds have elapsed since the stored instant (a sliding
window), and on trigger the stored instant becomes `now` (otherwise it is
unchanged). -/
theorem maybeReset_spec (now lastReset : PyDateTime) :
    ((maybeReset now .daily lastReset).1 = true ↔ lastReset.date < now.date)
    ∧ ((maybeReset now .weekly lastReset).1 = true ↔
        sevenDaysSec ≤ now.epochSec - lastReset.epochSec)
    ∧ (∀ p : Period, (maybeReset now p lastReset).1 = true →
        (maybeReset now p lastReset).2 = now)
    ∧ (∀ p : Period, (maybeReset now p lastReset).1 = false →
        (maybeReset now p lastReset).2 = lastReset)
    ∧ (now.date = lastReset.date → (maybeReset now .daily lastReset).1 = false) := by
  refine ⟨?_, ?_, ?_, ?_, ?_⟩
  · by_cases h : lastReset.date < now.date <;> simp [maybeReset, h]
  · by_cases h : sevenDaysSec ≤ now.epochSec - lastReset.epochSec <;> simp [maybeReset, h]
  · intro p hp
    cases p with
    | daily =>
      by_cases h : lastReset.date < now.date <;> simp_all [maybeReset, h]
    | weekly =>
      by_cases h : sevenDaysSec ≤ now.epochSec - lastReset.epochSec <;>
        simp_all [maybeReset, h]
  · intro p hp
    cases p with
    | daily =>
      by_cases h : lastReset.date < now.date
      · simp_all [maybeReset, h]
      · simp only [maybeReset, if_neg h]
    | weekly =>
      by_cases h : sevenDaysSec ≤ now.epochSec - lastReset.epochSec
      · simp_all [maybeReset, h]
      · simp only [maybeReset, if_neg h]
  · intro h
    simp [maybeReset, h]

/-- Witness for `maybeReset_spec` at a concrete pair of instants: the stored
instant is day 100 at epoch second 0; `now` is later on the same day, so the
daily reset does not fire. -/
theorem maybeReset_spec_witness :
    (maybeReset ⟨100, 3600⟩ .daily ⟨100, 0⟩).1 = false :=
  (maybeReset_spec ⟨100, 3600⟩ ⟨100, 0⟩).2.2.2.2 rfl

/-! ### Watch-Time Ledger document

The JSON document `watch_time.json` maintained by
`youtube_handler._update_watch_time` and `theme_analyzer`: an all-time grand
total, per-video entries, per-category entries, and one reset baseline per
period (absent baseline sub-objects in the JSON are read back with
`.get(..., 0)` defaults everywhere, so they are embedded as always-present
zero/empty baselines). -/

/-- A per-video entry of `watch_data["videos"]`. -/
structure VideoEntry where
  total_time : ℚ
  session_count : ℕ
deriving DecidableEq

/-- A per-category entry of `watch_data["categories"]`: all-time seconds,
number of distinct videos, and the list of distinct video ids used to keep
`video_count` unique. -/
structure CatEntry where
  total_time : ℚ
  video_count : ℕ
  videos : List String
deriving DecidableEq

/-- One period's baseline in `watch_data["reset_points"]`. -/
structure ResetPoint where
  total_time : ℚ
  categories : List (String × ℚ)
deriving DecidableEq

/-- The `watch_time.json` document. -/
structure WatchData where
  total_watch_time : ℚ
  videos : List (String × VideoEntry)
  categories : List (String × CatEntry)
  reset_daily : ResetPoint
  reset_weekly : ResetPoint
deriving DecidableEq

/-- The document written by `youtube_handler._initialize_logs`
(`{"total_watch_time": 0, "videos": {}, "categories": {}}`; no
`reset_points`, i.e. all-zero baselines). -/
def initialWatchData : WatchData :=
  ⟨0, [], [], ⟨0, []⟩, ⟨0, []⟩⟩

/-- The baseline record for a period. -/
def resetPoint (w : WatchData) : Period → ResetPoint
  | .daily => w.reset_daily
  | .weekly => w.reset_weekly

/-- A category's all-time total,
`watch_data.get("categories", {}).get(cid, {}).get("total_time", 0)`. -/
def catTotal (w : WatchData) (cid : String) : ℚ :=
  match alookup w.categories cid with
  | some e => e.total_time
  | none => 0

/-- A category's baseline for a period,
`watch_data.get("reset_points", {}).get(p, {}).get("categories", {}).get(cid, 0)`. -/
def catBaseline (w : WatchData) (p : Period) (cid : String) : ℚ :=
  match alookup (resetPoint w p).categories cid with
  | some b => b
  | none => 0

/-- The grand total's current-period value, `total_watch_time` minus that
period's baseline. -/
def currentTotal (w : WatchData) (p : Period) : ℚ :=
  w.total_watch_time - (resetPoint w p).total_time

/-- A category's current-period value, its all-time total minus that
period's baseline. -/
def currentCat (w : WatchData) (p : Period) (cid : String) : ℚ :=
  catTotal w cid - catBaseline w p cid

/-- The update `youtube_handler._update_watch_time(video_id, duration_seconds)`:
adds the session's duration to the grand total and to the video's entry,
bumps the video's session count, and — when the video is present in the
separate `youtube_videos.json` log, which yields its category id `cat` —
adds the duration to that category's entry, appending the video id to the
category's distinct-video list (bumping `video_count`) only if new.
`cat = none` models a video id absent from the videos log, in which case the
category block is skipped entirely. -/
def applyRecord (w : WatchData) (vid : String) (cat : Option String) (d : ℚ) : WatchData :=
  let ve := match alookup w.videos vid with
    | some e => e
    | none => ⟨0, 0⟩
  let w1 : WatchData :=
    { w with
      total_watch_time := w.total_watch_time + d
      videos := dictSet w.videos vid ⟨ve.total_time + d, ve.session_count + 1⟩ }
  match cat with
  | none => w1
  | some c =>
    let e := match alookup w1.categories c with
      | some e => e
      | none => ⟨0, 0, []⟩
    let newVideos := if vid ∈ e.videos then e.videos else e.videos ++ [vid]
    let newCount := if vid ∈ e.videos then e.video_count else e.video_count + 1
    { w1 with categories := dictSet w1.categories c ⟨e.total_time + d, newCount, newVideos⟩ }

/-- The loop `for category, data in watch_data.get("categories", {}).items():
reset_points[reset_type]["categories"][category] = data["total_time"]`:
writes every category's all-time total into the baseline dict, starting from
the existing baseline entries. -/
def snapshotCats (base : List (String × ℚ)) (cats : List (String × CatEntry)) :
    List (String × ℚ) :=
  cats.foldl (fun acc q => dictSet acc q.1 q.2.total_time) base

/-- The reset `theme_analyzer._reset_watch_time(reset_type)`: snapshots the current
grand total as the period's baseline total and every category's current
all-time total as that category's baseline (existing baseline entries for
other keys are left in place, since the Python code mutates the baseline
dict key by key). -/
def resetWatchTime (w : WatchData) (p : Period) : WatchData :=
  let newPoint : ResetPoint :=
    ⟨w.total_watch_time, snapshotCats (resetPoint w p).categories w.categories⟩
  match p with
  | .daily => { w with reset_daily := newPoint }
  | .weekly => { w with reset_weekly := newPoint }

/-! ### Limits configuration and `check_time_limits` -/

/-- One period's block of `theme_limits.json`: an optional `total` limit and
per-category limits. -/
structure PeriodLimits where
  total : Option ℚ
  categories : List (String × ℚ)

/-- The `theme_limits.json` configuration. -/
structure Limits where
  daily : PeriodLimits
  weekly : PeriodLimits

/-- The block of the configuration for a period. -/
def periodLimits (L : Limits) : Period → PeriodLimits
  | .daily => L.daily
  | .weekly => L.weekly

/-- Python truthiness of a limit read with `.get`: `if daily_total_limit:`
skips the check when the limit is absent (`None`) or equal to `0`. -/
def truthyLim : Option ℚ → Option ℚ
  | none => none
  | some x => if x = 0 then none else some x

/-- The kind of a limit alert, the `"type"` field of the alert dict. -/
inductive AlertType where
  | dailyTotal
  | dailyCategory
  | weeklyTotal
  | weeklyCategory
deriving DecidableEq

/-- A limit alert as built by `check_time_limits` (structured fields only;
the display `category_name` and the `message` string are presentation). -/
structure Alert where
  type : AlertType
  category_id : Option String
  limit : ℚ
  current : ℚ
deriving DecidableEq

/-- One `total` block of `check_time_limits`: if the period's total limit is
truthy, compute the current-period total and alert iff this update crossed
the limit. -/
def totalAlerts (ty : AlertType) (totLimit : Option ℚ) (grandTotal baseline d : ℚ) :
    List Alert :=
  match truthyLim totLimit with
  | none => []
  | some lim =>
    let current := grandTotal - baseline
    if crossedLimit current d lim then [⟨ty, none, lim, current⟩] else []

/-- One `categories` block of `check_time_limits`: if the period's limit for
the video's category id is truthy, compute the category's current-period
value and alert iff this update crossed the limit. -/
def catAlerts (ty : AlertType) (catLimit : Option ℚ) (cid : String)
    (catTot baseline d : ℚ) : List Alert :=
  match truthyLim catLimit with
  | none => []
  | some lim =>
    let current := catTot - baseline
    if crossedLimit current d lim then [⟨ty, some cid, lim, current⟩] else []

/-- The checker `theme_analyzer.check_time_limits(video_details, duration_seconds)`,
called after `_update_watch_time` has been applied, so `w` is the
post-update document.  `vd` is the category id of the video details dict
(`none` models a falsy `video_details`).  Returns `[]` for missing details
or non-positive duration, otherwise the daily-total, daily-category,
weekly-total and weekly-category alerts in that order. -/
def checkTimeLimits (L : Limits) (w : WatchData) (vd : Option String) (d : ℚ) :
    List Alert :=
  match vd with
  | none => []
  | some cid =>
    if d ≤ 0 then []
    else
      totalAlerts .dailyTotal L.daily.total w.total_watch_time
          w.reset_daily.total_time d
        ++ catAlerts .dailyCategory (alookup L.daily.categories cid) cid
          (catTotal w cid) (catBaseline w .daily cid) d
        ++ totalAlerts .weeklyTotal L.weekly.total w.total_watch_time
          w.reset_weekly.total_time d
        ++ catAlerts .weeklyCategory (alookup L.weekly.categories cid) cid
          (catTotal w cid) (catBaseline w .weekly cid) d

/-! ### Reset frame and effect (C3) -/

theorem resetWatchTime_total (w : WatchData) (p : Period) :
    (resetWatchTime w p).total_watch_time = w.total_watch_time := by
  cases p <;> rfl

theorem resetWatchTime_categories (w : WatchData) (p : Period) :
    (resetWatchTime w p).categories = w.categories := by
  cases p <;> rfl

theorem resetPoint_resetWatchTime (w : WatchData) (p : Period) :
    resetPoint (resetWatchTime w p) p =
      ⟨w.total_watch_time, snapshotCats (resetPoint w p).categories w.categories⟩ := by
  cases p <;> rfl

theorem alookup_snapshotCats_of_notMem (cats : List (String × CatEntry))
    (base : List (String × ℚ)) (k : String) (h : k ∉ cats.map Prod.fst) :
    alookup (snapshotCats base cats) k = alookup base k := by
  induction cats generalizing base with
  | nil => rfl
  | cons hd t ih =>
    obtain ⟨k0, e0⟩ := hd
    simp only [List.map_cons, List.mem_cons, not_or] at h
    have step : snapshotCats base ((k0, e0) :: t) =
        snapshotCats (dictSet base k0 e0.total_time) t := rfl
    rw [step, ih _ h.2, alookup_dictSet_ne _ _ _ _ (fun hk => h.1 hk.symm)]

theorem alookup_snapshotCats_of_mem (cats : List (String × CatEntry)) :
    ∀ (base : List (String × ℚ)) (k : String) (e : CatEntry),
      (cats.map Prod.fst).Nodup → (k, e) ∈ cats →
      alookup (snapshotCats base cats) k = some e.total_time := by
  induction cats with
  | nil =>
    intro base k e _ hmem
    cases hmem
  | cons hd t ih =>
    intro base k e hnd hmem
    obtain ⟨k0, e0⟩ := hd
    simp only [List.map_cons, List.nodup_cons] at hnd
    have step : snapshotCats base ((k0, e0) :: t) =
        snapshotCats (dictSet base k0 e0.total_time) t := rfl
    rcases List.mem_cons.mp hmem with heq | hmem2
    · injection heq with hk he
      subst hk
      subst he
      rw [step, alookup_snapshotCats_of_notMem _ _ _ hnd.1, alookup_dictSet_self]
    · rw [step, ih _ _ _ hnd.2 hmem2]

theorem alookup_eq_of_mem_nodup (l : List (String × CatEntry)) :
    ∀ (k : String) (e : CatEntry),
      (l.map Prod.fst).Nodup → (k, e) ∈ l → alookup l k = some e := by
  induction l with
  | nil =>
    intro k e _ hmem
    cases hmem
  | cons hd t ih =>
    intro k e hnd hmem
    obtain ⟨k0, e0⟩ := hd
    simp only [List.map_cons, List.nodup_cons] at hnd
    rcases List.mem_cons.mp hmem with heq | hmem2
    · injection heq with hk he
      subst hk
      subst he
      simp [alookup]
    · have hk0 : k0 ≠ k := by
        intro hk
        subst hk
        exact hnd.1 (List.mem_map.mpr ⟨(k0, e), hmem2, rfl⟩)
      simp only [alookup, if_neg hk0]
      exact ih _ _ hnd.2 hmem2

/-- C3: a daily (or weekly) reset leaves every key's all-time total and the
all-time grand total unchanged, and makes the reset period's current value 0
for the grand total and for every key of the ledger.  The hypothesis that the
ledger's category keys are distinct is automatic for states built by the
Python code, where `categories` is a dict. -/
theorem reset_zeroes_period_keeps_totals (w : WatchData) (p : Period)
    (hnd : (w.categories.map Prod.fst).Nodup) :
    (resetWatchTime w p).total_watch_time = w.total_watch_time
    ∧ (∀ cid, catTotal (resetWatchTime w p) cid = catTotal w cid)
    ∧ currentTotal (resetWatchTime w p) p = 0
    ∧ (∀ q ∈ w.categories, currentCat (resetWatchTime w p) p q.1 = 0) := by
  refine ⟨resetWatchTime_total w p, ?_, ?_, ?_⟩
  · intro cid
    unfold catTotal
    rw [resetWatchTime_categories]
  · unfold currentTotal
    rw [resetWatchTime_total, resetPoint_resetWatchTime]
    ring
  · rintro ⟨k, e⟩ hq
    unfold currentCat catBaseline
    rw [resetPoint_resetWatchTime]
    have hbase : alookup (snapshotCats (resetPoint w p).categories w.categories) k =
        some e.total_time :=
      alookup_snapshotCats_of_mem _ _ _ _ hnd hq
    have htot : catTotal (resetWatchTime w p) k = e.total_time := by
      unfold catTotal
      rw [resetWatchTime_categories, alookup_eq_of_mem_nodup _ _ _ hnd hq]
    simp only [htot, hbase]
    ring

/-- Witness for `reset_zeroes_period_keeps_totals`: a ledger with 300 seconds
all for category `"20"`; after the daily reset the all-time figures are
unchanged and the daily current values are 0. -/
theorem reset_zeroes_period_keeps_totals_witness :
    (resetWatchTime ⟨300, [], [("20", ⟨300, 1, ["v"]⟩)], ⟨0, []⟩, ⟨0, []⟩⟩
        .daily).total_watch_time = 300
    ∧ currentTotal
        (resetWatchTime ⟨300, [], [("20", ⟨300, 1, ["v"]⟩)], ⟨0, []⟩, ⟨0, []⟩⟩ .daily)
        .daily = 0
    ∧ currentCat
        (resetWatchTime ⟨300, [], [("20", ⟨300, 1, ["v"]⟩)], ⟨0, []⟩, ⟨0, []⟩⟩ .daily)
        .daily "20" = 0 := by
  have h := reset_zeroes_period_keeps_totals
    ⟨300, [], [("20", ⟨300, 1, ["v"]⟩)], ⟨0, []⟩, ⟨0, []⟩⟩ .daily (by decide)
  exact ⟨h.1, h.2.2.1, h.2.2.2 ("20", ⟨300, 1, ["v"]⟩) (by decide)⟩

/-! ### Grand-total conservation over operation sequences (C4) -/

/-- One ledger mutation: a finished session recorded by
`youtube_handler._update_watch_time`, or a period reset applied by
`theme_analyzer._reset_watch_time`. -/
inductive LedgerOp where
  | record (vid : String) (cat : Option String) (d : ℚ)
  | reset (p : Period)

/-- Apply one operation to the watch-time document. -/
def applyOp (w : WatchData) : LedgerOp → WatchData
  | .record vid cat d => applyRecord w vid cat d
  | .reset p => resetWatchTime w p

/-- The duration recorded by an operation (0 for resets, which record
nothing). -/
def LedgerOp.duration : LedgerOp → ℚ
  | .record _ _ d => d
  | .reset _ => 0

/-- Sum of all durations ever recorded by a sequence of operations. -/
def durTotal (ops : List LedgerOp) : ℚ :=
  (ops.map LedgerOp.duration).sum

theorem applyRecord_total (w : WatchData) (vid : String) (cat : Option String)
    (d : ℚ) : (applyRecord w vid cat d).total_watch_time = w.total_watch_time + d := by
  cases cat <;> rfl

theorem applyOp_total (w : WatchData) (op : LedgerOp) :
    (applyOp w op).total_watch_time = w.total_watch_time + op.duration := by
  cases op with
  | record vid cat d => exact applyRecord_total w vid cat d
  | reset p =>
    show (resetWatchTime w p).total_watch_time = w.total_watch_time + 0
    rw [resetWatchTime_total, add_zero]

theorem foldl_applyOp_total (ops : List LedgerOp) :
    ∀ w : WatchData,
      (ops.foldl applyOp w).total_watch_time = w.total_watch_time + durTotal ops := by
  induction ops with
  | nil =>
    intro w
    simp [durTotal]
  | cons op t ih =>
    intro w
    have : durTotal (op :: t) = op.duration + durTotal t := by
      simp [durTotal]
    rw [List.foldl_cons, ih (applyOp w op), applyOp_total, this]
    ring

/-- C4: for every sequence of `record` calls with non-negative durations,
interleaved with any number of daily or weekly resets, the grand total after
the sequence equals the sum of all recorded durations: each duration is
counted exactly once and resets never change the grand total. -/
theorem grand_total_eq_sum_of_durations (ops : List LedgerOp)
    (_hd : ∀ op ∈ ops, 0 ≤ op.duration) :
    (ops.foldl applyOp initialWatchData).total_watch_time = durTotal ops := by
  rw [foldl_applyOp_total ops initialWatchData]
  show (0 : ℚ) + durTotal ops = durTotal ops
  rw [zero_add]

/-- A concrete operation sequence: two sessions (5 s for a video of category
`"20"`, 3 s for a video missing from the videos log) around a daily reset. -/
def demoOps : List LedgerOp :=
  [.record "v" (some "20") 5, .reset .daily, .record "w" none 3]

/-- Witness for `grand_total_eq_sum_of_durations`: running `demoOps` from the
initial document leaves a grand total of 8 seconds. -/
theorem grand_total_eq_sum_of_durations_witness :
    (demoOps.foldl applyOp initialWatchData).total_watch_time = 8 :=
  (grand_total_eq_sum_of_durations demoOps (by decide)).trans
    (by norm_num [durTotal, demoOps, LedgerOp.duration])

/-! ### No re-alert until reset (C5) -/

/-- A completed watch session as the monitor loop reports it: on video end,
`youtube_handler.record_video_end` applies `_update_watch_time` and then
`monitor.on_video_ended` calls `theme_analyzer.check_time_limits` with the
video's details and the session duration.  The video was stored in the
videos log by `record_video_start`, so its category id `cat` is the one the
ledger update uses. -/
structure SessionOp where
  vid : String
  cat : String
  d : ℚ

/-- Replay a list of sessions through the update-then-check flow, collecting
each call's alert list. -/
def runRecords (L : Limits) : WatchData → List SessionOp → WatchData × List (List Alert)
  | w, [] => (w, [])
  | w, op :: t =>
    let w1 := applyRecord w op.vid (some op.cat) op.d
    let al := checkTimeLimits L w1 (some op.cat) op.d
    let rest := runRecords L w1 t
    (rest.1, al :: rest.2)

/-- The category-alert kind belonging to a period. -/
def catAlertType : Period → AlertType
  | .daily => .dailyCategory
  | .weekly => .weeklyCategory

theorem applyRecord_resetPoint (w : WatchData) (vid : String) (cat : Option String)
    (d : ℚ) (p : Period) :
    resetPoint (applyRecord w vid cat d) p = resetPoint w p := by
  cases cat <;> cases p <;> rfl

theorem catBaseline_applyRecord (w : WatchData) (vid : String) (cat : Option String)
    (d : ℚ) (p : Period) (k : String) :
    catBaseline (applyRecord w vid cat d) p k = catBaseline w p k := by
  unfold catBaseline
  rw [applyRecord_resetPoint]

theorem applyRecord_categories_none (w : WatchData) (vid : String) (d : ℚ) :
    (applyRecord w vid none d).categories = w.categories := rfl

theorem catTotal_applyRecord (w : WatchData) (vid : String) (cat : Option String)
    (d : ℚ) (k : String) :
    catTotal (applyRecord w vid cat d) k =
      catTotal w k + (if cat = some k then d else 0) := by
  cases cat with
  | none =>
    simp only [Option.some.injEq, reduceCtorEq, if_false, add_zero]
    unfold catTotal
    rw [applyRecord_categories_none]
  | some c =>
    have hcats : (applyRecord w vid (some c) d).categories =
        dictSet w.categories c
          ⟨(match alookup w.categories c with
            | some e => e
            | none => ⟨0, 0, []⟩).total_time + d,
            _, _⟩ := rfl
    by_cases hck : c = k
    · subst hck
      unfold catTotal
      rw [hcats, alookup_dictSet_self]
      cases h : alookup w.categories c with
      | none => simp [h]
      | some e => simp [h]
    · unfold catTotal
      rw [hcats, alookup_dictSet_ne _ _ _ _ hck]
      simp [hck]

theorem currentCat_applyRecord (w : WatchData) (vid c : String) (d : ℚ)
    (p : Period) (k : String) :
    currentCat (applyRecord w vid (some c) d) p k =
      currentCat w p k + (if c = k then d else 0) := by
  unfold currentCat
  rw [catTotal_applyRecord, catBaseline_applyRecord]
  by_cases hck : c = k
  · subst hck
    simp only [if_pos rfl]
    ring
  · simp only [Option.some.injEq, hck, if_false]
    ring

theorem over_limit_preserved (w : WatchData) (vid c : String) (d : ℚ)
    (p : Period) (k : String) (lim : ℚ) (hover : lim < currentCat w p k)
    (hd : 0 ≤ d) : lim < currentCat (applyRecord w vid (some c) d) p k := by
  rw [currentCat_applyRecord]
  by_cases hck : c = k
  · rw [if_pos hck]
    linarith
  · rw [if_neg hck, add_zero]
    exact hover

theorem mem_totalAlerts {a : Alert} {ty : AlertType} {tl : Option ℚ}
    {gt bl d : ℚ} (h : a ∈ totalAlerts ty tl gt bl d) :
    a.category_id = none ∧ a.type = ty := by
  cases htl : truthyLim tl with
  | none =>
    simp only [totalAlerts, htl] at h
    cases h
  | some lim =>
    simp only [totalAlerts, htl] at h
    split at h
    · rcases List.mem_singleton.mp h with rfl
      exact ⟨rfl, rfl⟩
    · cases h

theorem mem_catAlerts {a : Alert} {ty : AlertType} {cl : Option ℚ}
    {cid : String} {ct bl d : ℚ} (h : a ∈ catAlerts ty cl cid ct bl d) :
    ∃ lim, truthyLim cl = some lim ∧ crossedLimit (ct - bl) d lim
      ∧ a = ⟨ty, some cid, lim, ct - bl⟩ := by
  cases hcl : truthyLim cl with
  | none =>
    simp only [catAlerts, hcl] at h
    cases h
  | some lim =>
    simp only [catAlerts, hcl] at h
    split at h
    · rcases List.mem_singleton.mp h with rfl
      exact ⟨lim, rfl, by assumption, rfl⟩
    · cases h

theorem truthyLim_eq_some {x lim : ℚ} (h : truthyLim (some x) = some lim) :
    x = lim := by
  by_cases hx : x = 0
  · simp [truthyLim, hx] at h
  · simp only [truthyLim, if_neg hx, Option.some.injEq] at h
    exact h

/-- The single-step heart of the no-re-alert property: if the key's
current-period value already exceeds its configured limit before a session
with non-negative duration is recorded, then the post-update limit check
reports no category alert for that period/key pair. -/
theorem step_no_key_alert (L : Limits) (w : WatchData) (p : Period) (key : String)
    (lim : ℚ) (vid c : String) (d : ℚ)
    (hlook : alookup ((periodLimits L p).categories) key = some lim)
    (hover : lim < currentCat w p key) (_hd : 0 ≤ d) :
    ∀ a ∈ checkTimeLimits L (applyRecord w vid (some c) d) (some c) d,
      ¬ (a.type = catAlertType p ∧ a.category_id = some key) := by
  intro a ha hcontra
  obtain ⟨hty, hcid⟩ := hcontra
  by_cases hd0 : d ≤ 0
  · simp only [checkTimeLimits, if_pos hd0] at ha
    cases ha
  simp only [checkTimeLimits, if_neg hd0] at ha
  rcases List.mem_append.mp ha with ha3 | ha4
  rcases List.mem_append.mp ha3 with ha1 | ha2
  rcases List.mem_append.mp ha1 with hat | hac
  · exact Option.noConfusion ((mem_totalAlerts hat).1 ▸ hcid)
  -- daily category block
  · obtain ⟨lim2, htl, hcr, rfl⟩ := mem_catAlerts hac
    simp only at hty hcid
    cases p with
    | weekly => cases hty
    | daily =>
      have hc : c = key := Option.some.inj hcid
      subst hc
      have hlook2 : alookup L.daily.categories c = some lim := hlook
      rw [hlook2] at htl
      have hlim2 : lim = lim2 := truthyLim_eq_some htl
      subst hlim2
      have hcur : catTotal (applyRecord w vid (some c) d) c
          - catBaseline (applyRecord w vid (some c) d) .daily c
          = currentCat w .daily c + d := by
        rw [catTotal_applyRecord, catBaseline_applyRecord, if_pos rfl]
        unfold currentCat
        ring
      rw [hcur] at hcr
      obtain ⟨_, hback⟩ := hcr
      have : currentCat w .daily c ≤ lim := by linarith
      exact absurd hover (not_lt.mpr this)
  · exact Option.noConfusion ((mem_totalAlerts ha2).1 ▸ hcid)
  -- weekly category block
  · obtain ⟨lim2, htl, hcr, rfl⟩ := mem_catAlerts ha4
    simp only at hty hcid
    cases p with
    | daily => cases hty
    | weekly =>
      have hc : c = key := Option.some.inj hcid
      subst hc
      have hlook2 : alookup L.weekly.categories c = some lim := hlook
      rw [hlook2] at htl
      have hlim2 : lim = lim2 := truthyLim_eq_some htl
      subst hlim2
      have hcur : catTotal (applyRecord w vid (some c) d) c
          - catBaseline (applyRecord w vid (some c) d) .weekly c
          = currentCat w .weekly c + d := by
        rw [catTotal_applyRecord, catBaseline_applyRecord, if_pos rfl]
        unfold currentCat
        ring
      rw [hcur] at hcr
      obtain ⟨_, hback⟩ := hcr
      have : currentCat w .weekly c ≤ lim := by linarith
      exact absurd hover (not_lt.mpr this)

theorem no_realert_aux (L : Limits) (p : Period) (key : String) (lim : ℚ)
    (hlook : alookup ((periodLimits L p).categories) key = some lim)
    (ops : List SessionOp) :
    ∀ w : WatchData, lim < currentCat w p key → (∀ op ∈ ops, 0 ≤ op.d) →
      ∀ al ∈ (runRecords L w ops).2, ∀ a ∈ al,
        ¬ (a.type = catAlertType p ∧ a.category_id = some key) := by
  induction ops with
  | nil =>
    intro w _ _ al hal
    cases hal
  | cons op t ih =>
    intro w hover hd al hal
    have hd0 : 0 ≤ op.d := hd op (List.mem_cons_self op t)
    have hdt : ∀ q ∈ t, 0 ≤ q.d := fun q hq => hd q (List.mem_cons_of_mem op hq)
    rcases List.mem_cons.mp hal with rfl | htail
    · exact step_no_key_alert L w p key lim op.vid op.cat op.d hlook hover hd0
    · exact ih (applyRecord w op.vid (some op.cat) op.d)
        (over_limit_preserved w op.vid op.cat op.d p key lim hover hd0) hdt al htail

/-- C5: once the key's current-period value is over its configured limit,
replaying any further sequence of `record` calls with non-negative durations
(and no intervening reset) reports no new crossing for that period/key pair
at any step. -/
theorem no_realert_until_reset (L : Limits) (p : Period) (key : String)
    (lim : ℚ) (w : WatchData) (ops : List SessionOp)
    (hlim : alookup ((periodLimits L p).categories) key = some lim)
    (hover : lim < currentCat w p key)
    (hd : ∀ op ∈ ops, 0 ≤ op.d) :
    ∀ al ∈ (runRecords L w ops).2, ∀ a ∈ al,
      ¬ (a.type = catAlertType p ∧ a.category_id = some key) :=
  no_realert_aux L p key lim hlim ops w hover hd

/-- Limits used by the no-re-alert witness: daily total 2050 s, daily limit
1800 s for category `"20"`, no weekly limits. -/
def demoLimits : Limits := ⟨⟨some 2050, [("20", 1800)]⟩, ⟨none, []⟩⟩

/-- Ledger used by the no-re-alert witness: 2000 s, all on category `"20"`,
zero baselines — category `"20"` is already over its 1800 s daily limit. -/
def demoLedger : WatchData :=
  ⟨2000, [("v0", ⟨2000, 1⟩)], [("20", ⟨2000, 1, ["v0"]⟩)], ⟨0, []⟩, ⟨0, []⟩⟩

/-- Witness for `no_realert_until_reset`: with category `"20"` already at
2000 s against an 1800 s daily limit, a further 100 s session produces a
daily-total alert (2050 s total limit crossed) but that alert is not a
daily crossing for category `"20"`. -/
theorem no_realert_until_reset_witness :
    ¬ ((Alert.mk .dailyTotal none 2050 2100).type = catAlertType .daily
      ∧ (Alert.mk .dailyTotal none 2050 2100).category_id = some "20") := by
  have happ := no_realert_until_reset demoLimits .daily "20" 1800 demoLedger
    [⟨"v", "20", 100⟩]
    (by simp [periodLimits, demoLimits, alookup])
    (by norm_num [currentCat, catTotal, catBaseline, resetPoint, demoLedger, alookup])
    (by
      intro op hop
      rcases List.mem_singleton.mp hop with rfl
      norm_num)
  have hv : ("v0" : String) ≠ "v" := by decide
  have hv2 : ("v" : String) ≠ "v0" := by decide
  have hw1 : applyRecord demoLedger "v" (some "20") 100 =
      ⟨2100, [("v0", ⟨2000, 1⟩), ("v", ⟨100, 1⟩)],
        [("20", ⟨2100, 2, ["v0", "v"]⟩)], ⟨0, []⟩, ⟨0, []⟩⟩ := by
    norm_num [applyRecord, demoLedger, alookup, dictSet, hv, hv2]
  have hcr1 : crossedLimit (2100 : ℚ) 100 2050 := by
    constructor <;> norm_num
  have hcr2 : ¬ crossedLimit (2100 : ℚ) 100 1800 := by
    rintro ⟨_, h2⟩
    norm_num at h2
  have heval : checkTimeLimits demoLimits
      (applyRecord demoLedger "v" (some "20") 100) (some "20") 100 =
      [⟨.dailyTotal, none, 2050, 2100⟩] := by
    rw [hw1]
    simp only [checkTimeLimits, totalAlerts, catAlerts, truthyLim, catTotal,
      catBaseline, resetPoint, alookup, demoLimits, sub_zero]
    norm_num [hcr1, hcr2]
  have hmem1 : checkTimeLimits demoLimits
      (applyRecord demoLedger "v" (some "20") 100) (some "20") 100 ∈
      (runRecords demoLimits demoLedger [⟨"v", "20", 100⟩]).2 :=
    List.mem_singleton.mpr rfl
  exact happ _ hmem1 _ (by rw [heval]; exact List.mem_singleton.mpr rfl)

/-! ### Scenario: gaming category crosses its daily limit (C6) -/

/-- The limits of the C6 scenario: `{daily: {total: 7200, categories:
{"20": 1800}}}` and no weekly block. -/
def scenarioLimits : Limits := ⟨⟨some 7200, [("20", 1800)]⟩, ⟨none, []⟩⟩

/-- C6: starting from the freshly initialised ledger, a 1700 s session on a
video of category `"20"` reports no crossing, and a further 200 s session on
that category reports exactly one crossing — the daily category alert for
`"20"` (limit 1800, current 1900) — and in particular no daily-total alert,
since 1900 < 7200. -/
theorem scenario_gaming_daily_crossing :
    (runRecords scenarioLimits initialWatchData
        [⟨"a", "20", 1700⟩, ⟨"a", "20", 200⟩]).2 =
      [[], [⟨.dailyCategory, some "20", 1800, 1900⟩]] := by
  have h1 : applyRecord initialWatchData "a" (some "20") 1700 =
      ⟨1700, [("a", ⟨1700, 1⟩)], [("20", ⟨1700, 1, ["a"]⟩)], ⟨0, []⟩, ⟨0, []⟩⟩ := by
    norm_num [applyRecord, initialWatchData, alookup, dictSet]
  have h2 : applyRecord
      (⟨1700, [("a", ⟨1700, 1⟩)], [("20", ⟨1700, 1, ["a"]⟩)], ⟨0, []⟩, ⟨0, []⟩⟩ :
        WatchData) "a" (some "20") 200 =
      ⟨1900, [("a", ⟨1900, 2⟩)], [("20", ⟨1900, 1, ["a"]⟩)], ⟨0, []⟩, ⟨0, []⟩⟩ := by
    norm_num [applyRecord, alookup, dictSet]
  have hn1 : ¬ crossedLimit (1700 : ℚ) 1700 7200 := by
    rintro ⟨hlt, _⟩
    norm_num at hlt
  have hn2 : ¬ crossedLimit (1700 : ℚ) 1700 1800 := by
    rintro ⟨hlt, _⟩
    norm_num at hlt
  have hc : crossedLimit (1900 : ℚ) 200 1800 := by
    constructor <;> norm_num
  have hn3 : ¬ crossedLimit (1900 : ℚ) 200 7200 := by
    rintro ⟨hlt, _⟩
    norm_num at hlt
  have e1 : checkTimeLimits scenarioLimits
      (⟨1700, [("a", ⟨1700, 1⟩)], [("20", ⟨1700, 1, ["a"]⟩)], ⟨0, []⟩, ⟨0, []⟩⟩ :
        WatchData) (some "20") 1700 = [] := by
    simp only [checkTimeLimits, totalAlerts, catAlerts, truthyLim, catTotal,
      catBaseline, resetPoint, alookup, scenarioLimits, sub_zero]
    norm_num [hn1, hn2]
  have e2 : checkTimeLimits scenarioLimits
      (⟨1900, [("a", ⟨1900, 2⟩)], [("20", ⟨1900, 1, ["a"]⟩)], ⟨0, []⟩, ⟨0, []⟩⟩ :
        WatchData) (some "20") 200 =
      [⟨.dailyCategory, some "20", 1800, 1900⟩] := by
    simp only [checkTimeLimits, totalAlerts, catAlerts, truthyLim, catTotal,
      catBaseline, resetPoint, alookup, scenarioLimits, sub_zero]
    norm_num [hc, hn3]
  show ((runRecords scenarioLimits initialWatchData
      [⟨"a", "20", 1700⟩, ⟨"a", "20", 200⟩]).2 = _)
  simp only [runRecords, h1, h2, e1, e2]

/-! ### The flat tracker implementation (`watch_time_tracker.py`)

`WatchTimeTracker.update_watch_time(theme, duration_seconds)` keeps a flat
`theme -> seconds` dict.  A falsy `theme` (Python `if not theme: return`,
i.e. `None` or the empty string, both modelled by `""`) returns immediately
without touching anything; otherwise the duration — negative or not — is
added to the theme's entry, the data is saved, and the user is alerted iff
the theme has a configured limit that this update crossed. -/

/-- The tracker entry `update_watch_time`: returns the updated `watch_time` dict and whether
`alert_user` was invoked. -/
def wtUpdateWatchTime (limits watchTime : List (String × ℚ)) (theme : String)
    (d : ℚ) : List (String × ℚ) × Bool :=
  if theme = "" then (watchTime, false)
  else
    let prev := match alookup watchTime theme with
      | some v => v
      | none => 0
    let newVal := prev + d
    let watchTime2 := dictSet watchTime theme newVal
    let alerted := match alookup limits theme with
      | some lim => if crossedLimit newVal d lim then true else false
      | none => false
    (watchTime2, alerted)

/-- C10: a record call with a missing/empty key is a complete no-op at the
public interface: `update_watch_time` returns with the dict unchanged and no
alert, and `check_time_limits` with falsy video details returns no
crossings (so no alert and no write happens anywhere). -/
theorem empty_key_record_is_noop (limits watchTime : List (String × ℚ))
    (d : ℚ) (L : Limits) (w : WatchData) (d2 : ℚ) :
    wtUpdateWatchTime limits watchTime "" d = (watchTime, false)
    ∧ checkTimeLimits L w none d2 = [] :=
  ⟨rfl, rfl⟩

/-- C7 counterexample: `update_watch_time` does not reject negative
durations.  Recording theme `"x"` for −5 seconds on an empty tracker mutates
the state to `{"x": -5}` instead of leaving it unchanged, and no error is
raised (the function has no failure channel at all). -/
theorem negative_duration_mutates_state :
    (wtUpdateWatchTime [] [] "x" (-5)).1 = [("x", -5)]
    ∧ [("x", (-5 : ℚ))] ≠ ([] : List (String × ℚ)) := by
  have hx : ("x" : String) ≠ "" := by decide
  constructor
  · norm_num [wtUpdateWatchTime, hx, alookup, dictSet]
  · simp

/-- C7 as amended: negative durations are passed through uncritically —
`update_watch_time` adds `d` to the theme's entry (mutating and persisting
the dict; there is no `InvalidDuration` error channel), while the
document-based checker `check_time_limits` merely reports no crossings for
a non-positive duration. -/
theorem negative_duration_passthrough (limits watchTime : List (String × ℚ))
    (theme : String) (d : ℚ) (hne : theme ≠ "") (hneg : d < 0)
    (L : Limits) (w : WatchData) (vd : Option String) :
    (wtUpdateWatchTime limits watchTime theme d).1 =
      dictSet watchTime theme
        ((match alookup watchTime theme with
          | some v => v
          | none => 0) + d)
    ∧ checkTimeLimits L w vd d = [] := by
  constructor
  · simp only [wtUpdateWatchTime, if_neg hne]
  · cases vd with
    | none => rfl
    | some cid => simp only [checkTimeLimits, if_pos (le_of_lt hneg)]

/-- Witness for `negative_duration_passthrough` at theme `"x"`, duration −5,
empty tracker/limits and the initial document. -/
theorem negative_duration_passthrough_witness :
    (wtUpdateWatchTime [] [] "x" (-5)).1 =
      dictSet [] "x"
        ((match alookup ([] : List (String × ℚ)) "x" with
          | some v => v
          | none => 0) + (-5))
    ∧ checkTimeLimits ⟨⟨none, []⟩, ⟨none, []⟩⟩ initialWatchData none (-5) = [] :=
  negative_duration_passthrough [] [] "x" (-5) (by decide) (by norm_num)
    ⟨⟨none, []⟩, ⟨none, []⟩⟩ initialWatchData none

/-! ### Time formatters (C8)

Two separate `_format_time` helpers exist: `monitor._format_time`
(monitor.py) and `ThemeAnalyzer._format_time` (theme_analyzer.py).  Both are
untyped Python functions receiving either ints (limits read from the JSON
configuration) or floats (accumulated watch-time totals such as
`(end_time - start_time).total_seconds()`, passed on by
`get_stats_report`).

`monitor._format_time` converts every displayed unit with `int()`, i.e.
floors it, so its behaviour on any non-negative input factors through the
floor of the input and an embedding on ℕ is exact.

`ThemeAnalyzer._format_time` applies no `int()`/floor anywhere: the value
(or the `divmod` quotient and remainder, which for both ints and floats are
floor-division and remainder) goes straight into the f-string.  It is
embedded on ℚ, with the f-string's number-to-string conversion of the
incoming numeric type (`str` for int, `repr` for float) as an explicit
`render` parameter. -/

/-- The formatter `monitor._format_time`: `"{n} seconds"` under a minute, `"{m} minutes"`
under an hour, `"{h}h {m}m"` from one hour up; every displayed unit passes
through `int()`, so the ℕ embedding is exact for all non-negative inputs. -/
def monitorFormatTime (seconds : ℕ) : String :=
  if seconds < 60 then toString seconds ++ " seconds"
  else
    let minutes := seconds / 60
    if minutes < 60 then toString minutes ++ " minutes"
    else toString (minutes / 60) ++ "h " ++ toString (minutes % 60) ++ "m"

/-- Python floor division `a // b`, the quotient component of `divmod` for
ints and floats alike. -/
def pyFloorDiv (a b : ℚ) : ℚ := (⌊a / b⌋ : ℤ)

/-- Python `a % b`, the remainder component of `divmod`:
`a - b * (a // b)`. -/
def pyMod (a b : ℚ) : ℚ := a - b * pyFloorDiv a b

/-- Python `str` of an int-typed value (a whole rational): its numerator. -/
def pyIntRepr (q : ℚ) : String := toString q.num

/-- Python `repr` of a float-typed value, modelled for the values used in
the theorems below (at most one decimal place): a whole value renders as
`"n.0"` and a value with a fractional part as `"n.t"` with `t` its tenths
digit. -/
def pyFloatRepr (q : ℚ) : String :=
  if q = (⌊q⌋ : ℤ) then toString ⌊q⌋ ++ ".0"
  else toString ⌊q⌋ ++ "." ++ toString ⌊(q - ⌊q⌋) * 10⌋

/-- The formatter `ThemeAnalyzer._format_time`: `"{n} seconds"` under a minute,
`"{m} minutes[, {s} seconds]"` under an hour, and `"{h} hour[s][, {m}
minutes]"` (spelled-out units, singular/plural) from one hour up.  The
numeric values are handed to the string conversion `render` verbatim — no
`int()`/floor is applied to any displayed unit. -/
def analyzerFormatTime (render : ℚ → String) (seconds : ℚ) : String :=
  if seconds < 60 then render seconds ++ " seconds"
  else
    let minutes := pyFloorDiv seconds 60
    let secs := pyMod seconds 60
    if minutes < 60 then
      if secs = 0 then render minutes ++ " minutes"
      else render minutes ++ " minutes, " ++ render secs ++ " seconds"
    else
      let hours := pyFloorDiv minutes 60
      let mins := pyMod minutes 60
      if hours = 1 then
        if mins = 0 then render hours ++ " hour"
        else render hours ++ " hour, " ++ render mins ++ " minutes"
      else
        if mins = 0 then render hours ++ " hours"
        else render hours ++ " hours, " ++ render mins ++ " minutes"

/-- Substring test used to state "contains": `needle` occurs contiguously
in `hay`. -/
def strContains (hay needle : String) : Bool :=
  (List.range (hay.data.length + 1)).any fun i => needle.data.isPrefixOf (hay.data.drop i)

/-- C8 counterexample: `ThemeAnalyzer._format_time` violates the claimed
contract twice over.  It does not floor the displayed unit — on the float
59.5 it yields `"59.5 seconds"`, not `"59 seconds"` — and at one hour or
more it produces no `"{h}h {m}m"` form: `format(3661)` is
`"1 hour, 1 minutes"`, which does not contain `"1h"`. -/
theorem analyzer_format_counterexample :
    analyzerFormatTime pyFloatRepr (119 / 2) = "59.5 seconds"
    ∧ analyzerFormatTime pyFloatRepr (119 / 2) ≠ "59 seconds"
    ∧ analyzerFormatTime pyIntRepr 3661 = "1 hour, 1 minutes"
    ∧ strContains (analyzerFormatTime pyIntRepr 3661) "1h" = false := by
  have h595 : analyzerFormatTime pyFloatRepr (119 / 2) = "59.5 seconds" := by
    norm_num [analyzerFormatTime, pyFloatRepr]
    decide
  have h3661 : analyzerFormatTime pyIntRepr 3661 = "1 hour, 1 minutes" := by
    norm_num [analyzerFormatTime, pyFloorDiv, pyMod, pyIntRepr]
    decide
  refine ⟨h595, ?_, h3661, ?_⟩
  · rw [h595]
    decide
  · rw [h3661]
    decide

/-- C8 as amended: `monitor._format_time` satisfies the whole contract —
deterministic, locale-free, every displayed unit floored via `int()`,
`"{n} seconds"` under 60 (with `format(0) = "0 seconds"` and `format(59)`
containing `"59 seconds"`), minutes under an hour, and the `"{h}h {m}m"`
form at one hour or more (`format(3661) = "1h 1m"`).
`ThemeAnalyzer._format_time` keeps the `"{n} seconds"` / minutes-based
shapes but is not floor-rounded: on any input under 60 the unfloored value
itself is rendered (`format(59.5) = "59.5 seconds"`), in the minutes range
the floor-divmod quotient and the unfloored remainder are rendered, and at
one hour or more it spells the unit out (`format(3661) =
"1 hour, 1 minutes"`, no `"1h"` substring) instead of using `"{h}h {m}m"`. -/
theorem format_time_contract_amended :
    (∀ n : ℕ, n < 60 → monitorFormatTime n = toString n ++ " seconds")
    ∧ monitorFormatTime 0 = "0 seconds"
    ∧ strContains (monitorFormatTime 59) "59 seconds" = true
    ∧ (∀ n : ℕ, 60 ≤ n → n < 3600 →
      monitorFormatTime n = toString (n / 60) ++ " minutes")
    ∧ (∀ n : ℕ, 3600 ≤ n →
      monitorFormatTime n =
        toString (n / 60 / 60) ++ "h " ++ toString (n / 60 % 60) ++ "m")
    ∧ monitorFormatTime 3661 = "1h 1m"
    ∧ strContains (monitorFormatTime 3661) "1h" = true
    ∧ (∀ (render : ℚ → String) (s : ℚ), 0 ≤ s → s < 60 →
      analyzerFormatTime render s = render s ++ " seconds")
    ∧ (∀ (render : ℚ → String) (s : ℚ), 60 ≤ s → s < 3600 →
      analyzerFormatTime render s =
        if pyMod s 60 = 0 then render (pyFloorDiv s 60) ++ " minutes"
        else render (pyFloorDiv s 60) ++ " minutes, "
          ++ render (pyMod s 60) ++ " seconds")
    ∧ analyzerFormatTime pyIntRepr 0 = "0 seconds"
    ∧ strContains (analyzerFormatTime pyIntRepr 59) "59 seconds" = true
    ∧ analyzerFormatTime pyFloatRepr (119 / 2) = "59.5 seconds"
    ∧ analyzerFormatTime pyIntRepr 3661 = "1 hour, 1 minutes"
    ∧ strContains (analyzerFormatTime pyIntRepr 3661) "1h" = false := by
  refine ⟨?_, by decide, by decide, ?_, ?_, by decide, by decide, ?_, ?_,
    by decide, by decide,
    by norm_num [analyzerFormatTime, pyFloatRepr]; decide,
    by norm_num [analyzerFormatTime, pyFloorDiv, pyMod, pyIntRepr]; decide,
    ?_⟩
  · intro n hn
    simp [monitorFormatTime, hn]
  · intro n h60 h3600
    have h1 : ¬ n < 60 := by omega
    have h2 : n / 60 < 60 := by omega
    simp [monitorFormatTime, h1, h2]
  · intro n h3600
    have h1 : ¬ n < 60 := by omega
    have h2 : ¬ n / 60 < 60 := by omega
    simp [monitorFormatTime, h1, h2]
  · intro render s _ h60
    simp [analyzerFormatTime, h60]
  · intro render s h60 h3600
    have h1 : ¬ s < 60 := not_lt.mpr (by linarith)
    have h2 : pyFloorDiv s 60 < 60 := by
      unfold pyFloorDiv
      have hle : ((⌊s / 60⌋ : ℤ) : ℚ) ≤ s / 60 := Int.floor_le _
      have hlt : s / 60 < 60 := by
        rw [div_lt_iff₀ (by norm_num : (0 : ℚ) < 60)]
        linarith
      linarith
    simp only [analyzerFormatTime, if_neg h1, if_pos h2]
  · have h3661 : analyzerFormatTime pyIntRepr 3661 = "1 hour, 1 minutes" := by
      norm_num [analyzerFormatTime, pyFloorDiv, pyMod, pyIntRepr]
      decide
    rw [h3661]
    decide

/-- Witness for `format_time_contract_amended`: the quantified clauses
evaluated at 59, 61 and 3661 whole seconds for the monitor formatter, and at
the float 59.5 for the analyzer formatter (rendered unfloored). -/
theorem format_time_contract_amended_witness :
    monitorFormatTime 59 = "59 seconds"
    ∧ monitorFormatTime 61 = "1 minutes"
    ∧ monitorFormatTime 3661 = "1h 1m"
    ∧ analyzerFormatTime pyFloatRepr (119 / 2) = pyFloatRepr (119 / 2) ++ " seconds" := by
  obtain ⟨hsec, _, _, hmin, hhour, _, _, hana, _⟩ := format_time_contract_amended
  exact ⟨hsec 59 (by decide), hmin 61 (by decide) (by decide),
    hhour 3661 (by decide),
    hana pyFloatRepr (119 / 2) (by norm_num) (by norm_num)⟩

/-! ### Statistics report ordering (C9)

`theme_analyzer.get_stats_report` builds one record per category (in the
dict's insertion order) and then sorts with
`categories.sort(key=lambda x: x["total_time"], reverse=True)`.  CPython's
`list.sort` is stable and with `reverse=True` equal keys keep their original
relative order, so the sort is extensionally insertion sort with the
total-preorder "has at-least-as-large a total". -/

/-- "a's all-time total is at least b's" — the descending sort order of the
report (a preorder, not antisymmetric: ties are untouched). -/
def catGE (a b : String × CatEntry) : Prop :=
  b.2.total_time ≤ a.2.total_time

instance : DecidableRel catGE := fun a b => by
  unfold catGE
  infer_instance

instance : IsTotal (String × CatEntry) catGE :=
  ⟨fun a b => le_total b.2.total_time a.2.total_time⟩

instance : IsTrans (String × CatEntry) catGE :=
  ⟨fun _ _ _ hab hbc => le_trans hbc hab⟩

/-- The report's category ordering:
`categories.sort(key=lambda x: x["total_time"], reverse=True)`. -/
def sortCategoriesDesc (cats : List (String × CatEntry)) : List (String × CatEntry) :=
  List.insertionSort catGE cats

/-- Two categories with equal 100 s totals, in ledger insertion order
`"b"` before `"a"`. -/
def tieDemo : List (String × CatEntry) :=
  [("b", ⟨100, 1, []⟩), ("a", ⟨100, 1, []⟩)]

/-- C9 counterexample: the sort has no key tie-break.  With equal all-time
totals, keys stay in ledger insertion order (`["b", "a"]`), not in natural
string order (`"a" < "b"` would demand `["a", "b"]`). -/
theorem report_order_tie_counterexample :
    (sortCategoriesDesc tieDemo).map Prod.fst = ["b", "a"]
    ∧ ("a" : String) < "b"
    ∧ (sortCategoriesDesc tieDemo).map Prod.fst ≠ ["a", "b"] := by
  refine ⟨by decide, ?_, by decide⟩
  rw [String.lt_iff_toList_lt]
  decide

/-- C9 as amended: the report's breakdown is sorted by descending all-time
total and is a permutation of the ledger's categories, and any two entries
already in descending-or-tied order in the ledger keep their relative order
(stability) — so ties appear in ledger insertion order, not in key string
order, and the output is deterministic in the ledger document but not
independent of its insertion order. -/
theorem report_order_desc_stable (cats : List (String × CatEntry)) :
    List.Sorted catGE (sortCategoriesDesc cats)
    ∧ (sortCategoriesDesc cats).Perm cats
    ∧ (∀ a b : String × CatEntry, catGE a b →
        List.Sublist [a, b] cats → List.Sublist [a, b] (sortCategoriesDesc cats)) :=
  ⟨List.sorted_insertionSort catGE cats, List.perm_insertionSort catGE cats,
    fun _ _ hab hsub => List.pair_sublist_insertionSort hab hsub⟩

/-- Witness for `report_order_desc_stable` on the concrete tied ledger:
the tied pair (`"b"` then `"a"`) survives the sort in that order. -/
theorem report_order_desc_stable_witness :
    List.Sorted catGE (sortCategoriesDesc tieDemo)
    ∧ List.Sublist [("b", (⟨100, 1, []⟩ : CatEntry)), ("a", ⟨100, 1, []⟩)]
        (sortCategoriesDesc tieDemo) :=
  ⟨(report_order_desc_stable tieDemo).1,
    (report_order_desc_stable tieDemo).2.2 ("b", ⟨100, 1, []⟩) ("a", ⟨100, 1, []⟩)
      (by norm_num [catGE]) (List.Sublist.refl _)⟩

end WatchTimeEngine
